import Mathlib

/-
  Verification of the phone-number normalization core of AT-parseText
  (src/phone-utils.js): input cleaning (cleanRawInput), line-type
  classification (detectPhoneType) and international formatting
  (formatPhoneNumber).

  JS strings are embedded as `List Char`; the JS functions are translated
  branch for branch.  `formatPhoneNumber` returns plain strings in the JS
  code (either a "+"-prefixed success or an "Erreur: …" message); the
  error-kind vocabulary of the specification (§7) is attached afterwards
  by `kindOf`, which maps each concrete error message to its kind.
-/

namespace PhoneUtils

/-- Char-list view of a Lean string literal (JS strings are char sequences). -/
def str (s : String) : List Char := s.data

/-- JS `String.prototype.startsWith`: `startsWithL s p` is true iff `p` is a
prefix of `s`.  Recursion is structural on the pattern `p` so that the
function reduces whenever `p` is a literal. -/
def startsWithL (s p : List Char) : Bool :=
  match p with
  | [] => true
  | q :: p' =>
    match s with
    | [] => false
    | c :: s' => if c = q then startsWithL s' p' else false

/-- The filter the JS regex `/[^\d+]/g` complements: keep ASCII digits and
every `+` (not only a leading one). -/
def keepChar (ch : Char) : Bool :=
  ch.isDigit || decide (ch = '+')

/-- Prefix handling of `cleanRawInput` (lines 116–125): drop a single
leading `+`, else a single leading international-access `00`. -/
def dropAccess (cleaned : List Char) : List Char :=
  if startsWithL cleaned ['+'] then cleaned.drop 1
  else if startsWithL cleaned ['0', '0'] then cleaned.drop 2
  else cleaned

/-- `cleanRawInput` (phone-utils.js lines 110–126): strip non-digit,
non-`+` characters, then drop a single leading `+`, else a single leading
international-access `00`.  The JS guard `if (!phone) return ''` is the
empty-list test. -/
def cleanRawInput (phone : List Char) : List Char :=
  if phone = [] then []
  else dropAccess (phone.filter keepChar)

/-- A length rule of a `COUNTRY_CONFIGS` pattern: exact digit count, or an
inclusive min/max range (only Germany uses the range form). -/
inductive LenRule where
  | exact (n : Nat)
  | range (lo hi : Nat)
deriving DecidableEq

/-- One pattern of `COUNTRY_CONFIGS`: accepted leading-digit strings,
excluded leading-digit strings, length rule, and the line-type label. -/
structure Pat where
  starts : List (List Char)
  excl : List (List Char)
  len : LenRule
  label : List Char

def lblMobileFR : List Char := ['M', 'o', 'b', 'i', 'l', 'e', ' ', 'F', 'R']
def lblFixeFR : List Char := ['F', 'i', 'x', 'e', ' ', 'F', 'R']
def lblMobileCH : List Char := ['M', 'o', 'b', 'i', 'l', 'e', ' ', 'C', 'H']
def lblFixeCH : List Char := ['F', 'i', 'x', 'e', ' ', 'C', 'H']
def lblBE : List Char := ['B', 'E']
def lblIT : List Char := ['I', 'T']
def lblAND : List Char := ['A', 'N', 'D']
def lblMobileRUN : List Char := ['M', 'o', 'b', 'i', 'l', 'e', ' ', 'R', 'U', 'N']
def lblFixeRUN : List Char := ['F', 'i', 'x', 'e', ' ', 'R', 'U', 'N']
def lblDE : List Char := ['D', 'E']
def lblInconnu : List Char := ['I', 'n', 'c', 'o', 'n', 'n', 'u']

/-- `COUNTRY_CONFIGS` (phone-utils.js lines 8–103), flattened in the
iteration order of `Object.entries`: FR(mobile, landline), CH(mobile,
landline), BE, IT, AND, RUN(mobile, landline), DE. -/
def configs : List Pat :=
  [⟨[['0', '6'], ['0', '7'], ['3', '3']], [], .exact 10, lblMobileFR⟩,
   ⟨[['0', '1'], ['0', '2'], ['0', '3'], ['0', '4'], ['0', '5'], ['0', '9']],
     [], .exact 10, lblFixeFR⟩,
   ⟨[['4', '1', '7']], [], .exact 11, lblMobileCH⟩,
   ⟨[['4', '1']], [['4', '1', '7']], .exact 11, lblFixeCH⟩,
   ⟨[['3', '2']], [], .exact 11, lblBE⟩,
   ⟨[['3', '9']], [], .exact 12, lblIT⟩,
   ⟨[['3', '7', '6']], [], .exact 9, lblAND⟩,
   ⟨[['2', '6', '2', '6', '9', '2'], ['2', '6', '2', '6', '9', '3']],
     [], .exact 12, lblMobileRUN⟩,
   ⟨[['2', '6', '2', '2', '6', '2']], [], .exact 12, lblFixeRUN⟩,
   ⟨[['4', '9']], [], .range 11 15, lblDE⟩]

/-- One accepted-prefix check of `detectPhoneType`'s loop (lines 153–159):
the `'33'` entry is special-cased for local-form French numbers (leading
`0`): it then tests `cleaned.substring(1).length === 9` instead. -/
def matchesStartEntry (c : List Char) (start : List Char) : Bool :=
  if start = ['3', '3'] && startsWithL c ['0'] then decide ((c.drop 1).length = 9)
  else startsWithL c start

/-- Length check of the loop (lines 167–169). -/
def lenOk (c : List Char) : LenRule → Bool
  | .exact n => decide (c.length = n)
  | .range lo hi => decide (lo ≤ c.length) && decide (c.length ≤ hi)

/-- Whether one pattern accepts the cleaned string (lines 153–173):
accepted prefix, no excluded prefix, valid length. -/
def patMatches (c : List Char) (p : Pat) : Bool :=
  (p.starts.any (matchesStartEntry c)) &&
    !(p.excl.any (fun e => startsWithL c e)) && lenOk c p.len

/-- First-match scan over the flattened pattern table (lines 150–175);
`'Inconnu'` when nothing matches. -/
def classifyLoop : List Pat → List Char → List Char
  | [], _ => lblInconnu
  | p :: ps, c => if patMatches c p then p.label else classifyLoop ps c

/-- Substring test of the unanchored `|09` alternative of the regex
`/^0[1-5]|09/` (line 143): some position starts with `"09"`. -/
def hasZeroNine : List Char → Bool
  | [] => false
  | c :: rest => (if c = '0' then startsWithL rest ['9'] else false) || hasZeroNine rest

/-- The test of `/^0[1-5]|09/` (line 143): anchored `0[1-5]`, or `09`
anywhere in the string. -/
def frRegexTest (c : List Char) : Bool :=
  startsWithL c ['0', '1'] || startsWithL c ['0', '2'] || startsWithL c ['0', '3'] ||
    startsWithL c ['0', '4'] || startsWithL c ['0', '5'] || hasZeroNine c

/-- Body of `detectPhoneType` after cleaning (lines 136–177): the
French-local special case, then the pattern-table loop. -/
def classifyCleaned (c : List Char) : List Char :=
  if startsWithL c ['0'] && decide (c.length = 10) then
    if startsWithL c ['0', '6'] || startsWithL c ['0', '7'] then lblMobileFR
    else if frRegexTest c then lblFixeFR
    else classifyLoop configs c
  else classifyLoop configs c

/-- `detectPhoneType` (lines 133–178). -/
def detectPhoneType (phone : List Char) : List Char :=
  classifyCleaned (cleanRawInput phone)

def errVide : List Char := str "Erreur: Numéro vide"
def errApresNettoyage : List Char := str "Erreur: Numéro invalide après nettoyage"
def errFr10 : List Char := str "Erreur: Les numéros français doivent contenir exactement 10 chiffres"
def errFixe : List Char := str "Erreur: Numéro fixe non autorisé"
def errChMobile : List Char := str "Erreur: Les numéros mobiles suisses doivent contenir exactement 11 chiffres"
def errBe : List Char := str "Erreur: Les numéros belges doivent contenir exactement 11 chiffres"
def errIt : List Char := str "Erreur: Les numéros italiens doivent contenir exactement 12 chiffres"
def errAnd : List Char := str "Erreur: Les numéros andorrans doivent contenir exactement 9 chiffres"
def errRunMobile : List Char := str "Erreur: Les numéros mobiles réunionnais doivent contenir exactement 12 chiffres"
def errRunFixe : List Char := str "Erreur: Les numéros fixes réunionnais doivent contenir exactement 12 chiffres"
def errDe : List Char := str "Erreur: Numéro allemand mal formaté"
def errNonReconnu : List Char := str "Erreur: Numéro non reconnu ou mal formaté"

/-- Anchored French-landline test of `formatPhoneNumber` (line 206):
`/^(01|02|03|04|05|09)/`. -/
def frTrunk (c : List Char) : Bool :=
  startsWithL c ['0', '1'] || startsWithL c ['0', '2'] || startsWithL c ['0', '3'] ||
    startsWithL c ['0', '4'] || startsWithL c ['0', '5'] || startsWithL c ['0', '9']

/-- German block and final fallback of `formatPhoneNumber` (lines 276–283). -/
def afterRun (c : List Char) : List Char :=
  if startsWithL c ['4', '9'] then
    if c.length < 11 ∨ 15 < c.length then errDe else '+' :: c
  else errNonReconnu

/-- Belgian, Italian, Andorran and Réunion blocks of `formatPhoneNumber`
(lines 233–273); an unmatched string continues with `afterRun`. -/
def afterSwiss (c : List Char) : List Char :=
  if startsWithL c ['3', '2'] then
    if ¬ (c.length = 11) then errBe else '+' :: c
  else if startsWithL c ['3', '9'] then
    if ¬ (c.length = 12) then errIt else '+' :: c
  else if startsWithL c ['3', '7', '6'] then
    if ¬ (c.length = 9) then errAnd else '+' :: c
  else if startsWithL c ['2', '6', '2'] then
    if startsWithL c ['2', '6', '2', '6', '9', '2'] ||
        startsWithL c ['2', '6', '2', '6', '9', '3'] then
      if ¬ (c.length = 12) then errRunMobile else '+' :: c
    else if startsWithL c ['2', '6', '2', '2', '6', '2'] then
      if ¬ (c.length = 12) then errRunFixe else '+' :: c
    else afterRun c
  else afterRun c

/-- Swiss block of `formatPhoneNumber` (lines 219–231); a `41…` string of
the wrong landline length falls through to the following blocks. -/
def afterFrench (c : List Char) : List Char :=
  if startsWithL c ['4', '1'] then
    if startsWithL c ['4', '1', '7'] then
      if ¬ (c.length = 11) then errChMobile else '+' :: c
    else if c.length = 11 then '+' :: c
    else afterSwiss c
  else afterSwiss c

/-- Body of `formatPhoneNumber` on the non-empty cleaned string (lines
196–283): French local and internationalized blocks, then the remaining
countries. -/
def formatCleaned (c : List Char) : List Char :=
  if startsWithL c ['0'] then
    if startsWithL c ['0', '6'] || startsWithL c ['0', '7'] then
      if ¬ (c.length = 10) then errFr10 else '+' :: '3' :: '3' :: c.drop 1
    else if frTrunk c && decide (c.length = 10) then errFixe
    else afterFrench c
  else if startsWithL c ['3', '3'] && decide (c.length = 11) then
    if startsWithL (c.drop 2) ['6'] || startsWithL (c.drop 2) ['7'] then '+' :: c
    else afterFrench c
  else afterFrench c

/-- `formatPhoneNumber` (lines 185–284). -/
def formatPhoneNumber (phone : List Char) : List Char :=
  if phone = [] then errVide
  else if cleanRawInput phone = [] then errApresNettoyage
  else formatCleaned (cleanRawInput phone)

/-- Error kinds of specification §7. -/
inductive ErrKind where
  | emptyInput
  | rejectedLineType
  | invalidLength
  | unrecognizedFormat
deriving DecidableEq

/-- Modelled from the spec (§7): the error kind carried by each concrete
error message of `formatPhoneNumber`; `none` on any other string (the
success case).  The JS code returns bare message strings, so the kind
vocabulary lives only in the specification. -/
def kindOf (r : List Char) : Option ErrKind :=
  if r = errVide then some .emptyInput
  else if r = errApresNettoyage then some .emptyInput
  else if r = errFixe then some .rejectedLineType
  else if r = errFr10 then some .invalidLength
  else if r = errChMobile then some .invalidLength
  else if r = errBe then some .invalidLength
  else if r = errIt then some .invalidLength
  else if r = errAnd then some .invalidLength
  else if r = errRunMobile then some .invalidLength
  else if r = errRunFixe then some .invalidLength
  else if r = errDe then some .invalidLength
  else if r = errNonReconnu then some .unrecognizedFormat
  else none

/-- Modelled from the spec (§8, last property): the line-type label of the
country/line-type rule `formatPhoneNumber` uses on a cleaned string it
succeeds on, following the formatter's branch order (the `33` form is the
French mobile rule; `Inconnu` is a default never reached on a success). -/
def formatLabel (c : List Char) : List Char :=
  if startsWithL c ['0', '6'] || startsWithL c ['0', '7'] then lblMobileFR
  else if startsWithL c ['3', '3'] then lblMobileFR
  else if startsWithL c ['4', '1', '7'] then lblMobileCH
  else if startsWithL c ['4', '1'] then lblFixeCH
  else if startsWithL c ['3', '2'] then lblBE
  else if startsWithL c ['3', '9'] then lblIT
  else if startsWithL c ['3', '7', '6'] then lblAND
  else if startsWithL c ['2', '6', '2', '6', '9', '2'] ||
      startsWithL c ['2', '6', '2', '6', '9', '3'] then lblMobileRUN
  else if startsWithL c ['2', '6', '2', '2', '6', '2'] then lblFixeRUN
  else if startsWithL c ['4', '9'] then lblDE
  else lblInconnu

/-- The error messages the post-cleaning formatter body can return. -/
def fmtErrs : List (List Char) :=
  [errFr10, errFixe, errChMobile, errBe, errIt, errAnd, errRunMobile,
   errRunFixe, errDe, errNonReconnu]

/-- A JS string-or-nullish argument, to state the null/undefined contract
of `cleanRawInput`. -/
inductive JsStr where
  | jnull
  | jundef
  | jstr (s : List Char)

/-- `cleanRawInput` on a string-or-nullish value: `null` and `undefined`
are falsy, so the guard at line 111 returns the empty string. -/
def cleanRawInputJS : JsStr → List Char
  | .jnull => []
  | .jundef => []
  | .jstr s => cleanRawInput s

/-- Digit-only strings. -/
def allDigits (s : List Char) : Bool := s.all Char.isDigit

/-! ### Helper lemmas -/

/-- A true `startsWithL` exposes the prefix: the string is the pattern
followed by a tail. -/
theorem startsWithL_exists {s p : List Char} (h : startsWithL s p = true) :
    ∃ t, s = p ++ t := by
  induction p generalizing s with
  | nil => exact ⟨s, rfl⟩
  | cons q p' ih =>
    cases s with
    | nil => simp [startsWithL] at h
    | cons a s' =>
      simp only [startsWithL] at h
      split at h
      · rename_i haq
        obtain ⟨t, ht⟩ := ih h
        exact ⟨t, by rw [haq, ht]; rfl⟩
      · exact absurd h (by simp)

/-- On a digit-only string, cleaning only strips a leading `00`. -/
theorem clean_digits {x : List Char} (hx : allDigits x = true) :
    cleanRawInput x = if startsWithL x ['0', '0'] then x.drop 2 else x := by
  cases x with
  | nil => rfl
  | cons a t =>
    have hx' : (a :: t).all Char.isDigit = true := hx
    have hall := List.all_eq_true.mp hx'
    have hfilter : (a :: t).filter keepChar = a :: t :=
      List.filter_eq_self.mpr (fun ch hch => by simp [keepChar, hall ch hch])
    have ha : a.isDigit = true := hall a (List.mem_cons_self a t)
    have hplus : ¬ (a = '+') := by
      intro hEq
      rw [hEq] at ha
      exact absurd ha (by decide)
    have h1 : startsWithL (a :: t) ['+'] = false := by
      simp [startsWithL, hplus]
    simp only [cleanRawInput, dropAccess, hfilter, h1]
    simp

/-- Everything in the cleaned output already occurred in the input and
passed the digit-or-`+` filter. -/
theorem mem_clean {ch : Char} {s : List Char} (h : ch ∈ cleanRawInput s) :
    ch ∈ s ∧ keepChar ch = true := by
  unfold cleanRawInput at h
  split at h
  · simp at h
  · unfold dropAccess at h
    have hsub : ch ∈ s.filter keepChar := by
      split at h
      · exact List.mem_of_mem_drop h
      · split at h
        · exact List.mem_of_mem_drop h
        · exact h
    exact List.mem_filter.mp hsub

/-! ### Claims -/

/-- C5 (amended): `cleanInput` returns the empty string for null,
undefined and empty input; it is idempotent on digit-only strings that do
not start with `0000` (on a digit-only string starting `0000` each
application strips one more leading `00`, so idempotence fails there). -/
theorem c5_clean_empty_idempotent :
    cleanRawInputJS .jnull = [] ∧ cleanRawInputJS .jundef = [] ∧
      cleanRawInput [] = [] ∧
      ∀ x : List Char, allDigits x = true →
        startsWithL x ['0', '0', '0', '0'] = false →
        cleanRawInput (cleanRawInput x) = cleanRawInput x := by
  refine ⟨rfl, rfl, rfl, ?_⟩
  intro x hx h4
  rw [clean_digits hx]
  by_cases h00 : startsWithL x ['0', '0'] = true
  · rw [if_pos h00]
    obtain ⟨t, rfl⟩ := startsWithL_exists h00
    have ht : allDigits t = true := by
      have hx' : (('0' :: '0' :: t).all Char.isDigit) = true := hx
      simp only [List.all_cons, Bool.and_eq_true] at hx'
      exact hx'.2.2
    have ht00 : startsWithL t ['0', '0'] = false := by
      simpa [startsWithL] using h4
    show cleanRawInput t = t
    rw [clean_digits ht, if_neg (by simp [ht00])]
  · rw [if_neg h00, clean_digits hx, if_neg h00]

/-- C5 counterexample: the claim asserts idempotence on every digit-only
string, but a second cleaning of `"0000"` strips a further `00`. -/
theorem c5_counterexample :
    allDigits (str "0000") = true ∧
      cleanRawInput (cleanRawInput (str "0000")) ≠ cleanRawInput (str "0000") :=
  ⟨by decide, by decide⟩

/-- C6 (amended): the cleaned output consists only of ASCII digits and
`+` characters — the scan keeps every `+`, not only a leading one, and
only a single leading `+` is then dropped; when the input contains no `+`
at all, the output is digit-only.  The spec example holds. -/
theorem c6_clean_output_chars :
    (∀ (s : List Char) (ch : Char), ch ∈ cleanRawInput s →
        ch.isDigit = true ∨ ch = '+') ∧
    (∀ (s : List Char) (ch : Char), '+' ∉ s → ch ∈ cleanRawInput s →
        ch.isDigit = true) ∧
    cleanRawInput (str "+33 (6) 12.34.56.78") = str "33612345678" := by
  refine ⟨?_, ?_, by decide⟩
  · intro s ch h
    have hk := (mem_clean h).2
    simpa only [keepChar, Bool.or_eq_true, decide_eq_true_eq] using hk
  · intro s ch hplus h
    obtain ⟨hmem, hk⟩ := mem_clean h
    simp only [keepChar, Bool.or_eq_true, decide_eq_true_eq] at hk
    rcases hk with hk | hk
    · exact hk
    · exact absurd (hk ▸ hmem) hplus

/-- C6 counterexample: the claim says no `+` ever appears in the returned
string, but a non-leading `+` survives cleaning. -/
theorem c6_counterexample : '+' ∈ cleanRawInput (str "1+2") := by decide

/-- C2 (confirmed): every cleaned French mobile number formats to `+33`
plus the 9 national digits — a digit-only local form of length 10 starting
`06`/`07` yields `+33` plus the string without its leading `0`, an
already-internationalized digit-only form of length 11 starting `33` with
third digit `6`/`7` yields `+` plus the string, and
`format("0612345678") = "+33612345678"`. -/
theorem c2_french_mobile :
    (∀ c : List Char, allDigits c = true →
        (startsWithL c ['0', '6'] || startsWithL c ['0', '7']) = true →
        c.length = 10 → formatCleaned c = '+' :: '3' :: '3' :: c.drop 1) ∧
    (∀ c : List Char, allDigits c = true → startsWithL c ['3', '3'] = true →
        c.length = 11 →
        (startsWithL (c.drop 2) ['6'] || startsWithL (c.drop 2) ['7']) = true →
        formatCleaned c = '+' :: c) ∧
    formatPhoneNumber (str "0612345678") = str "+33612345678" := by
  refine ⟨?_, ?_, by decide⟩
  · intro c _ hsw h10
    simp only [Bool.or_eq_true] at hsw
    rcases hsw with h6 | h7
    · obtain ⟨t, rfl⟩ := startsWithL_exists h6
      have hl : t.length = 8 := by simpa using h10
      simp [formatCleaned, startsWithL, hl]
    · obtain ⟨t, rfl⟩ := startsWithL_exists h7
      have hl : t.length = 8 := by simpa using h10
      simp [formatCleaned, startsWithL, hl]
  · intro c _ hsw h11 h67
    obtain ⟨t, rfl⟩ := startsWithL_exists hsw
    have hl : t.length = 9 := by simpa using h11
    have h67' : (startsWithL t ['6'] || startsWithL t ['7']) = true := h67
    simp [formatCleaned, startsWithL, hl, h67']

/-- C2 witness: the two universally quantified parts evaluated on concrete
inputs. -/
theorem c2_french_mobile_witness :
    formatCleaned (str "0712345678") = '+' :: '3' :: '3' :: (str "0712345678").drop 1 ∧
    formatCleaned (str "33687654321") = '+' :: str "33687654321" :=
  ⟨c2_french_mobile.1 (str "0712345678") (by decide) (by decide) (by decide),
   c2_french_mobile.2.1 (str "33687654321") (by decide) (by decide) (by decide) (by decide)⟩

/-- C5 witness: the idempotence part of the theorem applied at a concrete
digit-only input. -/
theorem c5_clean_empty_idempotent_witness :
    cleanRawInput (cleanRawInput (str "0612")) = cleanRawInput (str "0612") :=
  c5_clean_empty_idempotent.2.2.2 (str "0612") (by decide) (by decide)

/-- C6 witness: both universally quantified parts applied at a concrete
input and character. -/
theorem c6_clean_output_chars_witness :
    (Char.isDigit '5' = true ∨ '5' = '+') ∧ Char.isDigit '3' = true :=
  ⟨c6_clean_output_chars.1 (str "a5") '5' (by decide),
   c6_clean_output_chars.2.1 (str "x3y") '3' (by decide) (by decide)⟩

/-- C3 (amended): a cleaned digit-only string starting `0`: with length 10
and a recognized landline trunk (`01`–`05`, `09`) it fails with kind
RejectedLineType; with a mobile trunk (`06`/`07`) and length other than 10
it fails with kind InvalidLength; any other 10-digit `0…` form matches no
country block and fails with kind UnrecognizedFormat (not InvalidLength as
claimed). -/
theorem c3_french_zero_failures :
    (∀ c : List Char, allDigits c = true → frTrunk c = true → c.length = 10 →
        kindOf (formatCleaned c) = some .rejectedLineType) ∧
    (∀ c : List Char, allDigits c = true →
        (startsWithL c ['0', '6'] || startsWithL c ['0', '7']) = true →
        ¬ (c.length = 10) → kindOf (formatCleaned c) = some .invalidLength) ∧
    (∀ c : List Char, allDigits c = true → startsWithL c ['0'] = true →
        c.length = 10 →
        (startsWithL c ['0', '6'] || startsWithL c ['0', '7']) = false →
        frTrunk c = false →
        kindOf (formatCleaned c) = some .unrecognizedFormat) := by
  refine ⟨?_, ?_, ?_⟩
  · intro c _ htr hl
    simp only [frTrunk, Bool.or_eq_true, or_assoc] at htr
    rcases htr with h | h | h | h | h | h <;>
      · obtain ⟨t, rfl⟩ := startsWithL_exists h
        simp only [List.cons_append, List.nil_append] at *
        have hl8 : t.length = 8 := by
          simp only [List.length_cons] at hl
          omega
        unfold formatCleaned
        rw [if_pos (by simp [startsWithL]), if_neg (by simp [startsWithL]),
          if_pos (by simp [frTrunk, startsWithL, hl8])]
        decide
  · intro c _ hsw h10
    simp only [Bool.or_eq_true] at hsw
    rcases hsw with h | h <;>
      · obtain ⟨t, rfl⟩ := startsWithL_exists h
        simp only [List.cons_append, List.nil_append] at *
        unfold formatCleaned
        rw [if_pos (by simp [startsWithL]), if_pos (by simp [startsWithL]),
          if_pos h10]
        decide
  · intro c _ h0 _ h67 htr
    obtain ⟨t, rfl⟩ := startsWithL_exists h0
    simp only [List.cons_append, List.nil_append] at *
    unfold formatCleaned
    rw [if_pos (by simp [startsWithL]), if_neg (by simp [h67]),
      if_neg (by simp [htr])]
    unfold afterFrench
    rw [if_neg (by simp [startsWithL])]
    unfold afterSwiss
    rw [if_neg (by simp [startsWithL]), if_neg (by simp [startsWithL]),
      if_neg (by simp [startsWithL]), if_neg (by simp [startsWithL])]
    unfold afterRun
    rw [if_neg (by simp [startsWithL])]
    decide

/-- C3 witness: the three parts of the theorem applied at concrete
inputs. -/
theorem c3_french_zero_failures_witness :
    kindOf (formatCleaned (str "0123456789")) = some ErrKind.rejectedLineType ∧
    kindOf (formatCleaned (str "0612345")) = some ErrKind.invalidLength ∧
    kindOf (formatCleaned (str "0898989898")) = some ErrKind.unrecognizedFormat :=
  ⟨c3_french_zero_failures.1 (str "0123456789") (by decide) (by decide) (by decide),
   c3_french_zero_failures.2.1 (str "0612345") (by decide) (by decide) (by decide),
   c3_french_zero_failures.2.2 (str "0898989898") (by decide) (by decide) (by decide)
     (by decide) (by decide)⟩

/-- C3 counterexample: the claim says every other 10-digit `0…` form fails
with kind InvalidLength, but `format("0812345678")` fails with kind
UnrecognizedFormat. -/
theorem c3_counterexample :
    kindOf (formatPhoneNumber (str "0812345678")) = some ErrKind.unrecognizedFormat ∧
      some ErrKind.unrecognizedFormat ≠ some ErrKind.invalidLength :=
  ⟨by decide, by decide⟩

/-- C4 (amended): a cleaned `417…` Swiss mobile formats to `+` plus the
string at exactly 11 digits and otherwise fails with kind InvalidLength; a
cleaned `41…` non-`417` Swiss landline formats to `+` plus the string at
exactly 11 digits, but at any other length it falls through every later
country block and fails with kind UnrecognizedFormat (not InvalidLength as
claimed); `format("41791234567") = "+41791234567"`. -/
theorem c4_swiss :
    (∀ c : List Char, allDigits c = true →
        startsWithL c ['4', '1', '7'] = true →
        (c.length = 11 → formatCleaned c = '+' :: c) ∧
        (¬ (c.length = 11) → kindOf (formatCleaned c) = some .invalidLength)) ∧
    (∀ c : List Char, allDigits c = true → startsWithL c ['4', '1'] = true →
        startsWithL c ['4', '1', '7'] = false →
        (c.length = 11 → formatCleaned c = '+' :: c) ∧
        (¬ (c.length = 11) →
          kindOf (formatCleaned c) = some .unrecognizedFormat)) ∧
    formatPhoneNumber (str "41791234567") = str "+41791234567" := by
  refine ⟨?_, ?_, by decide⟩
  · intro c _ hsw
    obtain ⟨t, rfl⟩ := startsWithL_exists hsw
    simp only [List.cons_append, List.nil_append] at *
    have hroute : formatCleaned ('4' :: '1' :: '7' :: t) =
        if ¬ (('4' :: '1' :: '7' :: t).length = 11) then errChMobile
        else '+' :: '4' :: '1' :: '7' :: t := by
      unfold formatCleaned
      rw [if_neg (by simp [startsWithL]), if_neg (by simp [startsWithL])]
      unfold afterFrench
      rw [if_pos (by simp [startsWithL]), if_pos (by simp [startsWithL])]
    constructor
    · intro hlen
      rw [hroute, if_neg (not_not_intro hlen)]
    · intro hlen
      rw [hroute, if_pos hlen]
      decide
  · intro c _ hsw h417
    obtain ⟨t, rfl⟩ := startsWithL_exists hsw
    simp only [List.cons_append, List.nil_append] at *
    have hroute : formatCleaned ('4' :: '1' :: t) =
        if ('4' :: '1' :: t).length = 11 then '+' :: '4' :: '1' :: t
        else afterSwiss ('4' :: '1' :: t) := by
      unfold formatCleaned
      rw [if_neg (by simp [startsWithL]), if_neg (by simp [startsWithL])]
      unfold afterFrench
      rw [if_pos (by simp [startsWithL]), if_neg (by simp [h417])]
    constructor
    · intro hlen
      rw [hroute, if_pos hlen]
    · intro hlen
      rw [hroute, if_neg hlen]
      unfold afterSwiss
      rw [if_neg (by simp [startsWithL]), if_neg (by simp [startsWithL]),
        if_neg (by simp [startsWithL]), if_neg (by simp [startsWithL])]
      unfold afterRun
      rw [if_neg (by simp [startsWithL])]
      decide

/-- C4 witness: the theorem's parts applied at concrete inputs. -/
theorem c4_swiss_witness :
    formatCleaned (str "41791234567") = '+' :: str "41791234567" ∧
    kindOf (formatCleaned (str "417912345")) = some ErrKind.invalidLength ∧
    formatCleaned (str "41123456789") = '+' :: str "41123456789" ∧
    kindOf (formatCleaned (str "411234567")) = some ErrKind.unrecognizedFormat :=
  ⟨(c4_swiss.1 (str "41791234567") (by decide) (by decide)).1 (by decide),
   (c4_swiss.1 (str "417912345") (by decide) (by decide)).2 (by decide),
   (c4_swiss.2.1 (str "41123456789") (by decide) (by decide) (by decide)).1 (by decide),
   (c4_swiss.2.1 (str "411234567") (by decide) (by decide) (by decide)).2 (by decide)⟩

/-- C4 counterexample: the claim says a Swiss landline of the wrong length
fails with kind InvalidLength, but `format("4112345678")` fails with kind
UnrecognizedFormat. -/
theorem c4_counterexample :
    kindOf (formatPhoneNumber (str "4112345678")) = some ErrKind.unrecognizedFormat ∧
      some ErrKind.unrecognizedFormat ≠ some ErrKind.invalidLength :=
  ⟨by decide, by decide⟩

/-- C7 (confirmed): a cleaned digit-only string starting `49` formats to
`+` plus the string exactly when its length lies in the inclusive range
[11, 15] and fails with kind InvalidLength otherwise; the 11-digit lower
boundary succeeds and a 16-digit German number fails. -/
theorem c7_german :
    (∀ c : List Char, allDigits c = true → startsWithL c ['4', '9'] = true →
        ((11 ≤ c.length ∧ c.length ≤ 15) → formatCleaned c = '+' :: c) ∧
        (¬ (11 ≤ c.length ∧ c.length ≤ 15) →
          kindOf (formatCleaned c) = some .invalidLength)) ∧
    formatPhoneNumber (str "49123456789") = '+' :: str "49123456789" ∧
    kindOf (formatPhoneNumber (str "4912345678901234")) = some .invalidLength := by
  refine ⟨?_, by decide, by decide⟩
  intro c _ hsw
  obtain ⟨t, rfl⟩ := startsWithL_exists hsw
  simp only [List.cons_append, List.nil_append] at *
  have hroute : formatCleaned ('4' :: '9' :: t) =
      if ('4' :: '9' :: t).length < 11 ∨ 15 < ('4' :: '9' :: t).length then errDe
      else '+' :: '4' :: '9' :: t := by
    unfold formatCleaned
    rw [if_neg (by simp [startsWithL]), if_neg (by simp [startsWithL])]
    unfold afterFrench
    rw [if_neg (by simp [startsWithL])]
    unfold afterSwiss
    rw [if_neg (by simp [startsWithL]), if_neg (by simp [startsWithL]),
      if_neg (by simp [startsWithL]), if_neg (by simp [startsWithL])]
    unfold afterRun
    rw [if_pos (by simp [startsWithL])]
  constructor
  · intro hlen
    rw [hroute, if_neg (by simp only [List.length_cons] at hlen ⊢; omega)]
  · intro hlen
    rw [hroute, if_pos (by simp only [List.length_cons] at hlen ⊢; omega)]
    decide

/-- C7 witness: the universally quantified part applied at concrete
inputs on both sides of the length range. -/
theorem c7_german_witness :
    formatCleaned (str "491234567890123") = '+' :: str "491234567890123" ∧
    kindOf (formatCleaned (str "4912345678")) = some ErrKind.invalidLength :=
  ⟨(c7_german.1 (str "491234567890123") (by decide) (by decide)).1 (by decide),
   (c7_german.1 (str "4912345678") (by decide) (by decide)).2 (by decide)⟩

/-- C8 (confirmed): a cleaned digit-only `262…` string with mobile
sub-prefix `262692`/`262693` or landline sub-prefix `262262` formats to
`+` plus the string at exactly 12 digits and fails with kind InvalidLength
otherwise; a `262…` string with neither sub-prefix falls through the
German block (which requires `49`) to the final UnrecognizedFormat
failure; the two spec examples hold. -/
theorem c8_reunion :
    (∀ c : List Char, allDigits c = true →
        (startsWithL c ['2', '6', '2', '6', '9', '2'] ||
          startsWithL c ['2', '6', '2', '6', '9', '3']) = true →
        (c.length = 12 → formatCleaned c = '+' :: c) ∧
        (¬ (c.length = 12) → kindOf (formatCleaned c) = some .invalidLength)) ∧
    (∀ c : List Char, allDigits c = true →
        startsWithL c ['2', '6', '2', '2', '6', '2'] = true →
        (c.length = 12 → formatCleaned c = '+' :: c) ∧
        (¬ (c.length = 12) → kindOf (formatCleaned c) = some .invalidLength)) ∧
    (∀ c : List Char, allDigits c = true →
        startsWithL c ['2', '6', '2'] = true →
        (startsWithL c ['2', '6', '2', '6', '9', '2'] ||
          startsWithL c ['2', '6', '2', '6', '9', '3']) = false →
        startsWithL c ['2', '6', '2', '2', '6', '2'] = false →
        kindOf (formatCleaned c) = some .unrecognizedFormat) ∧
    formatPhoneNumber (str "262692123456") = str "+262692123456" ∧
    formatPhoneNumber (str "262262123456") = str "+262262123456" := by
  refine ⟨?_, ?_, ?_, by decide, by decide⟩
  · intro c _ hsw
    simp only [Bool.or_eq_true] at hsw
    rcases hsw with h | h <;>
      · obtain ⟨t, rfl⟩ := startsWithL_exists h
        simp only [List.cons_append, List.nil_append] at *
        refine ⟨fun hlen => ?_, fun hlen => ?_⟩
        · unfold formatCleaned
          rw [if_neg (by simp [startsWithL]), if_neg (by simp [startsWithL])]
          unfold afterFrench
          rw [if_neg (by simp [startsWithL])]
          unfold afterSwiss
          rw [if_neg (by simp [startsWithL]), if_neg (by simp [startsWithL]),
            if_neg (by simp [startsWithL]), if_pos (by simp [startsWithL]),
            if_pos (by simp [startsWithL]), if_neg (not_not_intro hlen)]
        · unfold formatCleaned
          rw [if_neg (by simp [startsWithL]), if_neg (by simp [startsWithL])]
          unfold afterFrench
          rw [if_neg (by simp [startsWithL])]
          unfold afterSwiss
          rw [if_neg (by simp [startsWithL]), if_neg (by simp [startsWithL]),
            if_neg (by simp [startsWithL]), if_pos (by simp [startsWithL]),
            if_pos (by simp [startsWithL]), if_pos hlen]
          decide
  · intro c _ hsw
    obtain ⟨t, rfl⟩ := startsWithL_exists hsw
    simp only [List.cons_append, List.nil_append] at *
    refine ⟨fun hlen => ?_, fun hlen => ?_⟩
    · unfold formatCleaned
      rw [if_neg (by simp [startsWithL]), if_neg (by simp [startsWithL])]
      unfold afterFrench
      rw [if_neg (by simp [startsWithL])]
      unfold afterSwiss
      rw [if_neg (by simp [startsWithL]), if_neg (by simp [startsWithL]),
        if_neg (by simp [startsWithL]), if_pos (by simp [startsWithL]),
        if_neg (by simp [startsWithL]), if_pos (by simp [startsWithL]),
        if_neg (not_not_intro hlen)]
    · unfold formatCleaned
      rw [if_neg (by simp [startsWithL]), if_neg (by simp [startsWithL])]
      unfold afterFrench
      rw [if_neg (by simp [startsWithL])]
      unfold afterSwiss
      rw [if_neg (by simp [startsWithL]), if_neg (by simp [startsWithL]),
        if_neg (by simp [startsWithL]), if_pos (by simp [startsWithL]),
        if_neg (by simp [startsWithL]), if_pos (by simp [startsWithL]),
        if_pos hlen]
      decide
  · intro c _ hsw hM hL
    obtain ⟨t, rfl⟩ := startsWithL_exists hsw
    simp only [List.cons_append, List.nil_append] at *
    unfold formatCleaned
    rw [if_neg (by simp [startsWithL]), if_neg (by simp [startsWithL])]
    unfold afterFrench
    rw [if_neg (by simp [startsWithL])]
    unfold afterSwiss
    rw [if_neg (by simp [startsWithL]), if_neg (by simp [startsWithL]),
      if_neg (by simp [startsWithL]), if_pos hsw, if_neg (by simp [hM]),
      if_neg (by simp [hL])]
    unfold afterRun
    rw [if_neg (by simp [startsWithL])]
    decide

/-- C8 witness: the three universally quantified parts applied at concrete
inputs. -/
theorem c8_reunion_witness :
    formatCleaned (str "262693123456") = '+' :: str "262693123456" ∧
    kindOf (formatCleaned (str "26226212345")) = some ErrKind.invalidLength ∧
    kindOf (formatCleaned (str "262111222333")) = some ErrKind.unrecognizedFormat :=
  ⟨(c8_reunion.1 (str "262693123456") (by decide) (by decide)).1 (by decide),
   (c8_reunion.2.1 (str "26226212345") (by decide) (by decide)).2 (by decide),
   c8_reunion.2.2.1 (str "262111222333") (by decide) (by decide) (by decide) (by decide)⟩

/-! ### Success inversion for the formatter -/

/-- A `+`-prefixed result of the German/fallback block forces the `49`
prefix and the [11, 15] length range. -/
theorem afterRun_succ {c : List Char}
    (h : startsWithL (afterRun c) ['+'] = true) :
    startsWithL c ['4', '9'] = true ∧ 11 ≤ c.length ∧ c.length ≤ 15 := by
  unfold afterRun at h
  split at h
  · rename_i h49
    split at h
    · exact absurd h (by decide)
    · rename_i hr
      push_neg at hr
      exact ⟨h49, by omega⟩
  · exact absurd h (by decide)

/-- A `+`-prefixed result of the BE/IT/AND/RUN blocks (and what follows)
forces one of their prefix/length combinations. -/
theorem afterSwiss_succ {c : List Char}
    (h : startsWithL (afterSwiss c) ['+'] = true) :
    (startsWithL c ['3', '2'] = true ∧ c.length = 11) ∨
    (startsWithL c ['3', '9'] = true ∧ c.length = 12) ∨
    (startsWithL c ['3', '7', '6'] = true ∧ c.length = 9) ∨
    ((startsWithL c ['2', '6', '2', '6', '9', '2'] ||
        startsWithL c ['2', '6', '2', '6', '9', '3']) = true ∧ c.length = 12) ∨
    (startsWithL c ['2', '6', '2', '2', '6', '2'] = true ∧ c.length = 12) ∨
    (startsWithL c ['4', '9'] = true ∧ 11 ≤ c.length ∧ c.length ≤ 15) := by
  unfold afterSwiss at h
  split at h
  · rename_i h32
    split at h
    · exact absurd h (by decide)
    · rename_i hlen
      exact Or.inl ⟨h32, not_not.mp hlen⟩
  · split at h
    · rename_i h39
      split at h
      · exact absurd h (by decide)
      · rename_i hlen
        exact Or.inr (Or.inl ⟨h39, not_not.mp hlen⟩)
    · split at h
      · rename_i h376
        split at h
        · exact absurd h (by decide)
        · rename_i hlen
          exact Or.inr (Or.inr (Or.inl ⟨h376, not_not.mp hlen⟩))
      · split at h
        · split at h
          · rename_i hM
            split at h
            · exact absurd h (by decide)
            · rename_i hlen
              exact Or.inr (Or.inr (Or.inr (Or.inl ⟨hM, not_not.mp hlen⟩)))
          · split at h
            · rename_i hL
              split at h
              · exact absurd h (by decide)
              · rename_i hlen
                exact Or.inr (Or.inr (Or.inr (Or.inr (Or.inl
                  ⟨hL, not_not.mp hlen⟩))))
            · exact Or.inr (Or.inr (Or.inr (Or.inr (Or.inr (afterRun_succ h)))))
        · exact Or.inr (Or.inr (Or.inr (Or.inr (Or.inr (afterRun_succ h)))))

/-- A `+`-prefixed result of the Swiss block (and what follows) forces a
Swiss mobile, Swiss landline, or later-country combination. -/
theorem afterFrench_succ {c : List Char}
    (h : startsWithL (afterFrench c) ['+'] = true) :
    (startsWithL c ['4', '1', '7'] = true ∧ c.length = 11) ∨
    (startsWithL c ['4', '1'] = true ∧ startsWithL c ['4', '1', '7'] = false ∧
      c.length = 11) ∨
    ((startsWithL c ['3', '2'] = true ∧ c.length = 11) ∨
     (startsWithL c ['3', '9'] = true ∧ c.length = 12) ∨
     (startsWithL c ['3', '7', '6'] = true ∧ c.length = 9) ∨
     ((startsWithL c ['2', '6', '2', '6', '9', '2'] ||
         startsWithL c ['2', '6', '2', '6', '9', '3']) = true ∧ c.length = 12) ∨
     (startsWithL c ['2', '6', '2', '2', '6', '2'] = true ∧ c.length = 12) ∨
     (startsWithL c ['4', '9'] = true ∧ 11 ≤ c.length ∧ c.length ≤ 15)) := by
  unfold afterFrench at h
  split at h
  · rename_i h41
    split at h
    · rename_i h417
      split at h
      · exact absurd h (by decide)
      · rename_i hlen
        exact Or.inl ⟨h417, not_not.mp hlen⟩
    · rename_i h417
      split at h
      · rename_i hlen
        exact Or.inr (Or.inl ⟨h41, Bool.not_eq_true _ ▸ eq_false_of_ne_true h417, hlen⟩)
      · exact Or.inr (Or.inr (afterSwiss_succ h))
  · exact Or.inr (Or.inr (afterSwiss_succ h))

/-- A `+`-prefixed result of the whole formatter forces one of the ten
country/line-type success combinations. -/
theorem formatCleaned_succ {c : List Char}
    (h : startsWithL (formatCleaned c) ['+'] = true) :
    ((startsWithL c ['0', '6'] || startsWithL c ['0', '7']) = true ∧
      c.length = 10) ∨
    (startsWithL c ['3', '3'] = true ∧ c.length = 11) ∨
    ((startsWithL c ['4', '1', '7'] = true ∧ c.length = 11) ∨
     (startsWithL c ['4', '1'] = true ∧ startsWithL c ['4', '1', '7'] = false ∧
       c.length = 11) ∨
     ((startsWithL c ['3', '2'] = true ∧ c.length = 11) ∨
      (startsWithL c ['3', '9'] = true ∧ c.length = 12) ∨
      (startsWithL c ['3', '7', '6'] = true ∧ c.length = 9) ∨
      ((startsWithL c ['2', '6', '2', '6', '9', '2'] ||
          startsWithL c ['2', '6', '2', '6', '9', '3']) = true ∧ c.length = 12) ∨
      (startsWithL c ['2', '6', '2', '2', '6', '2'] = true ∧ c.length = 12) ∨
      (startsWithL c ['4', '9'] = true ∧ 11 ≤ c.length ∧ c.length ≤ 15))) := by
  unfold formatCleaned at h
  split at h
  · split at h
    · rename_i h67
      split at h
      · exact absurd h (by decide)
      · rename_i hlen
        exact Or.inl ⟨h67, not_not.mp hlen⟩
    · split at h
      · exact absurd h (by decide)
      · exact Or.inr (Or.inr (afterFrench_succ h))
  · split at h
    · rename_i h33len
      simp only [Bool.and_eq_true, decide_eq_true_eq] at h33len
      split at h
      · exact Or.inr (Or.inl h33len)
      · exact Or.inr (Or.inr (afterFrench_succ h))
    · exact Or.inr (Or.inr (afterFrench_succ h))

/-! ### Classification on the formatter's success set -/

/-- A 10-character string starting `06`/`07` classifies as `Mobile FR`. -/
theorem classify_fr_mobile {c : List Char}
    (h : (startsWithL c ['0', '6'] || startsWithL c ['0', '7']) = true)
    (hl : c.length = 10) : classifyCleaned c = lblMobileFR := by
  simp only [Bool.or_eq_true] at h
  rcases h with h | h <;>
    · obtain ⟨t, rfl⟩ := startsWithL_exists h
      simp only [List.cons_append, List.nil_append] at *
      have hl8 : t.length = 8 := by
        simp only [List.length_cons] at hl
        omega
      simp +decide [classifyCleaned, startsWithL, hl8]

/-- An 11-character string starting `33` matches no classification
pattern: the French mobile pattern demands length 10, and no other
pattern's prefix starts with `3`, `3`. -/
theorem classify_fr_intl {c : List Char} (h : startsWithL c ['3', '3'] = true)
    (hl : c.length = 11) : classifyCleaned c = lblInconnu := by
  obtain ⟨t, rfl⟩ := startsWithL_exists h
  simp only [List.cons_append, List.nil_append] at *
  have hl9 : t.length = 9 := by
    simp only [List.length_cons] at hl
    omega
  simp +decide [classifyCleaned, classifyLoop, configs, patMatches,
    matchesStartEntry, lenOk, startsWithL, hl9]

/-- An 11-character string starting `417` classifies as `Mobile CH`. -/
theorem classify_ch_mobile {c : List Char}
    (h : startsWithL c ['4', '1', '7'] = true) (hl : c.length = 11) :
    classifyCleaned c = lblMobileCH := by
  obtain ⟨t, rfl⟩ := startsWithL_exists h
  simp only [List.cons_append, List.nil_append] at *
  have hl8 : t.length = 8 := by
    simp only [List.length_cons] at hl
    omega
  simp +decide [classifyCleaned, classifyLoop, configs, patMatches,
    matchesStartEntry, lenOk, startsWithL, hl8]

/-- An 11-character string starting `41` but not `417` classifies as
`Fixe CH`. -/
theorem classify_ch_fixe {c : List Char}
    (h : startsWithL c ['4', '1'] = true)
    (h417 : startsWithL c ['4', '1', '7'] = false) (hl : c.length = 11) :
    classifyCleaned c = lblFixeCH := by
  obtain ⟨t, rfl⟩ := startsWithL_exists h
  simp only [List.cons_append, List.nil_append] at *
  have hl9 : t.length = 9 := by
    simp only [List.length_cons] at hl
    omega
  simp only [startsWithL, if_true, reduceIte] at h417
  simp +decide [classifyCleaned, classifyLoop, configs, patMatches,
    matchesStartEntry, lenOk, startsWithL, hl9, h417]

/-- An 11-character string starting `32` classifies as `BE`. -/
theorem classify_be {c : List Char} (h : startsWithL c ['3', '2'] = true)
    (hl : c.length = 11) : classifyCleaned c = lblBE := by
  obtain ⟨t, rfl⟩ := startsWithL_exists h
  simp only [List.cons_append, List.nil_append] at *
  have hl9 : t.length = 9 := by
    simp only [List.length_cons] at hl
    omega
  simp +decide [classifyCleaned, classifyLoop, configs, patMatches,
    matchesStartEntry, lenOk, startsWithL, hl9]

/-- A 12-character string starting `39` classifies as `IT`. -/
theorem classify_it {c : List Char} (h : startsWithL c ['3', '9'] = true)
    (hl : c.length = 12) : classifyCleaned c = lblIT := by
  obtain ⟨t, rfl⟩ := startsWithL_exists h
  simp only [List.cons_append, List.nil_append] at *
  have hl10 : t.length = 10 := by
    simp only [List.length_cons] at hl
    omega
  simp +decide [classifyCleaned, classifyLoop, configs, patMatches,
    matchesStartEntry, lenOk, startsWithL, hl10]

/-- A 9-character string starting `376` classifies as `AND`. -/
theorem classify_and {c : List Char} (h : startsWithL c ['3', '7', '6'] = true)
    (hl : c.length = 9) : classifyCleaned c = lblAND := by
  obtain ⟨t, rfl⟩ := startsWithL_exists h
  simp only [List.cons_append, List.nil_append] at *
  have hl6 : t.length = 6 := by
    simp only [List.length_cons] at hl
    omega
  simp +decide [classifyCleaned, classifyLoop, configs, patMatches,
    matchesStartEntry, lenOk, startsWithL, hl6]

/-- A 12-character string starting `262692`/`262693` classifies as
`Mobile RUN`. -/
theorem classify_run_mobile {c : List Char}
    (h : (startsWithL c ['2', '6', '2', '6', '9', '2'] ||
        startsWithL c ['2', '6', '2', '6', '9', '3']) = true)
    (hl : c.length = 12) : classifyCleaned c = lblMobileRUN := by
  simp only [Bool.or_eq_true] at h
  rcases h with h | h <;>
    · obtain ⟨t, rfl⟩ := startsWithL_exists h
      simp only [List.cons_append, List.nil_append] at *
      have hl6 : t.length = 6 := by
        simp only [List.length_cons] at hl
        omega
      simp +decide [classifyCleaned, classifyLoop, configs, patMatches,
        matchesStartEntry, lenOk, startsWithL, hl6]

/-- A 12-character string starting `262262` classifies as `Fixe RUN`. -/
theorem classify_run_fixe {c : List Char}
    (h : startsWithL c ['2', '6', '2', '2', '6', '2'] = true)
    (hl : c.length = 12) : classifyCleaned c = lblFixeRUN := by
  obtain ⟨t, rfl⟩ := startsWithL_exists h
  simp only [List.cons_append, List.nil_append] at *
  have hl6 : t.length = 6 := by
    simp only [List.length_cons] at hl
    omega
  simp +decide [classifyCleaned, classifyLoop, configs, patMatches,
    matchesStartEntry, lenOk, startsWithL, hl6]

/-- A string starting `49` with length in [11, 15] classifies as `DE`. -/
theorem classify_de {c : List Char} (h : startsWithL c ['4', '9'] = true)
    (hl : 11 ≤ c.length ∧ c.length ≤ 15) : classifyCleaned c = lblDE := by
  obtain ⟨t, rfl⟩ := startsWithL_exists h
  simp only [List.cons_append, List.nil_append] at *
  have hb : 9 ≤ t.length ∧ t.length ≤ 13 := by
    simp only [List.length_cons] at hl
    omega
  simp +decide [classifyCleaned, classifyLoop, configs, patMatches,
    matchesStartEntry, lenOk, startsWithL]
  omega

/-- On the formatter's success set, classification agrees with the rule
the formatter used — except for the internationalized French `33` form,
which no classification pattern accepts. -/
theorem c1_core {c : List Char}
    (h : startsWithL (formatCleaned c) ['+'] = true) :
    (startsWithL c ['3', '3'] = true ∧ classifyCleaned c = lblInconnu) ∨
    (classifyCleaned c = formatLabel c ∧ classifyCleaned c ≠ lblInconnu) := by
  rcases formatCleaned_succ h with ⟨h67, hl⟩ | ⟨h33, hl⟩ | hrest
  · right
    refine ⟨?_, ?_⟩
    · rw [classify_fr_mobile h67 hl]
      unfold formatLabel
      rw [if_pos h67]
    · rw [classify_fr_mobile h67 hl]
      decide
  · exact Or.inl ⟨h33, classify_fr_intl h33 hl⟩
  · rcases hrest with ⟨h417, hl⟩ | ⟨h41, h417, hl⟩ | hrest2
    · right
      obtain ⟨t, rfl⟩ := startsWithL_exists h417
      simp only [List.cons_append, List.nil_append] at *
      refine ⟨?_, ?_⟩
      · rw [classify_ch_mobile h417 hl]
        unfold formatLabel
        rw [if_neg (by simp [startsWithL]), if_neg (by simp [startsWithL]),
          if_pos (by simp [startsWithL])]
      · rw [classify_ch_mobile h417 hl]
        decide
    · right
      obtain ⟨t, rfl⟩ := startsWithL_exists h41
      simp only [List.cons_append, List.nil_append] at *
      refine ⟨?_, ?_⟩
      · rw [classify_ch_fixe h41 h417 hl]
        unfold formatLabel
        rw [if_neg (by simp [startsWithL]), if_neg (by simp [startsWithL]),
          if_neg (by simp [h417]), if_pos (by simp [startsWithL])]
      · rw [classify_ch_fixe h41 h417 hl]
        decide
    · rcases hrest2 with ⟨h32, hl⟩ | ⟨h39, hl⟩ | ⟨h376, hl⟩ | ⟨hM, hl⟩ |
        ⟨hL, hl⟩ | ⟨h49, hl⟩
      · right
        obtain ⟨t, rfl⟩ := startsWithL_exists h32
        simp only [List.cons_append, List.nil_append] at *
        refine ⟨?_, ?_⟩
        · rw [classify_be h32 hl]
          unfold formatLabel
          rw [if_neg (by simp [startsWithL]), if_neg (by simp [startsWithL]),
            if_neg (by simp [startsWithL]), if_neg (by simp [startsWithL]),
            if_pos (by simp [startsWithL])]
        · rw [classify_be h32 hl]
          decide
      · right
        obtain ⟨t, rfl⟩ := startsWithL_exists h39
        simp only [List.cons_append, List.nil_append] at *
        refine ⟨?_, ?_⟩
        · rw [classify_it h39 hl]
          unfold formatLabel
          rw [if_neg (by simp [startsWithL]), if_neg (by simp [startsWithL]),
            if_neg (by simp [startsWithL]), if_neg (by simp [startsWithL]),
            if_neg (by simp [startsWithL]), if_pos (by simp [startsWithL])]
        · rw [classify_it h39 hl]
          decide
      · right
        obtain ⟨t, rfl⟩ := startsWithL_exists h376
        simp only [List.cons_append, List.nil_append] at *
        refine ⟨?_, ?_⟩
        · rw [classify_and h376 hl]
          unfold formatLabel
          rw [if_neg (by simp [startsWithL]), if_neg (by simp [startsWithL]),
            if_neg (by simp [startsWithL]), if_neg (by simp [startsWithL]),
            if_neg (by simp [startsWithL]), if_neg (by simp [startsWithL]),
            if_pos (by simp [startsWithL])]
        · rw [classify_and h376 hl]
          decide
      · right
        have hcls := classify_run_mobile hM hl
        simp only [Bool.or_eq_true] at hM
        rcases hM with h' | h' <;>
          · obtain ⟨t, rfl⟩ := startsWithL_exists h'
            simp only [List.cons_append, List.nil_append] at *
            refine ⟨?_, ?_⟩
            · rw [hcls]
              unfold formatLabel
              rw [if_neg (by simp [startsWithL]), if_neg (by simp [startsWithL]),
                if_neg (by simp [startsWithL]), if_neg (by simp [startsWithL]),
                if_neg (by simp [startsWithL]), if_neg (by simp [startsWithL]),
                if_neg (by simp [startsWithL]), if_pos (by simp [startsWithL])]
            · rw [hcls]
              decide
      · right
        obtain ⟨t, rfl⟩ := startsWithL_exists hL
        simp only [List.cons_append, List.nil_append] at *
        refine ⟨?_, ?_⟩
        · rw [classify_run_fixe hL hl]
          unfold formatLabel
          rw [if_neg (by simp [startsWithL]), if_neg (by simp [startsWithL]),
            if_neg (by simp [startsWithL]), if_neg (by simp [startsWithL]),
            if_neg (by simp [startsWithL]), if_neg (by simp [startsWithL]),
            if_neg (by simp [startsWithL]), if_neg (by simp [startsWithL]),
            if_pos (by simp [startsWithL])]
        · rw [classify_run_fixe hL hl]
          decide
      · right
        obtain ⟨t, rfl⟩ := startsWithL_exists h49
        simp only [List.cons_append, List.nil_append] at *
        refine ⟨?_, ?_⟩
        · rw [classify_de h49 hl]
          unfold formatLabel
          rw [if_neg (by simp [startsWithL]), if_neg (by simp [startsWithL]),
            if_neg (by simp [startsWithL]), if_neg (by simp [startsWithL]),
            if_neg (by simp [startsWithL]), if_neg (by simp [startsWithL]),
            if_neg (by simp [startsWithL]), if_neg (by simp [startsWithL]),
            if_neg (by simp [startsWithL]), if_pos (by simp [startsWithL])]
        · rw [classify_de h49 hl]
          decide

/-- C1 (amended): on every input on which `formatPhoneNumber` succeeds,
`detectPhoneType` returns the label of the country/line-type rule the
formatter used — except when the cleaned input is the
already-internationalized French form (leading `33`), where
`detectPhoneType` returns `Inconnu` because the French mobile pattern
demands length 10. -/
theorem c1_format_classify (s : List Char)
    (h : startsWithL (formatPhoneNumber s) ['+'] = true) :
    (startsWithL (cleanRawInput s) ['3', '3'] = true ∧
      detectPhoneType s = lblInconnu) ∨
    (detectPhoneType s = formatLabel (cleanRawInput s) ∧
      detectPhoneType s ≠ lblInconnu) := by
  unfold formatPhoneNumber at h
  split at h
  · exact absurd h (by decide)
  · split at h
    · exact absurd h (by decide)
    · exact c1_core h

/-- C1 witness: the theorem applied at a concrete successful input. -/
theorem c1_format_classify_witness :
    (startsWithL (cleanRawInput (str "41791234567")) ['3', '3'] = true ∧
      detectPhoneType (str "41791234567") = lblInconnu) ∨
    (detectPhoneType (str "41791234567") =
        formatLabel (cleanRawInput (str "41791234567")) ∧
      detectPhoneType (str "41791234567") ≠ lblInconnu) :=
  c1_format_classify (str "41791234567") (by decide)

/-- C1 counterexample: `format` succeeds on `"33612345678"` (the cleaned
internationalized French mobile form) but `classify` returns `Inconnu`,
contradicting the claim that no such input exists. -/
theorem c1_counterexample :
    startsWithL (formatPhoneNumber (str "33612345678")) ['+'] = true ∧
      detectPhoneType (str "33612345678") = lblInconnu :=
  ⟨by decide, by decide⟩

/-! ### Result-shape lemmas and the remaining claims -/

/-- A cons headed by a character that is not the head of `e` differs
from `e`. -/
theorem cons_ne {a : Char} {t e : List Char} (h : ¬ e.head? = some a) :
    ¬ (a :: t = e) := fun he => h (by rw [← he]; rfl)

/-- No `+`-prefixed string is one of the error messages. -/
theorem kindOf_cons_plus (t : List Char) : kindOf ('+' :: t) = none := by
  unfold kindOf
  rw [if_neg (cons_ne (by decide)), if_neg (cons_ne (by decide)),
    if_neg (cons_ne (by decide)), if_neg (cons_ne (by decide)),
    if_neg (cons_ne (by decide)), if_neg (cons_ne (by decide)),
    if_neg (cons_ne (by decide)), if_neg (cons_ne (by decide)),
    if_neg (cons_ne (by decide)), if_neg (cons_ne (by decide)),
    if_neg (cons_ne (by decide)), if_neg (cons_ne (by decide))]

/-- The German/fallback block returns a `+`-prefixed string or an error
message. -/
theorem afterRun_shape (c : List Char) :
    (∃ t, afterRun c = '+' :: t) ∨ afterRun c ∈ fmtErrs := by
  unfold afterRun
  repeat' split
  all_goals first
    | exact Or.inl ⟨_, rfl⟩
    | exact Or.inr (by decide)

/-- The BE/IT/AND/RUN blocks return a `+`-prefixed string or an error
message. -/
theorem afterSwiss_shape (c : List Char) :
    (∃ t, afterSwiss c = '+' :: t) ∨ afterSwiss c ∈ fmtErrs := by
  unfold afterSwiss
  repeat' split
  all_goals first
    | exact Or.inl ⟨_, rfl⟩
    | exact Or.inr (by decide)
    | exact afterRun_shape c

/-- The Swiss block returns a `+`-prefixed string or an error message. -/
theorem afterFrench_shape (c : List Char) :
    (∃ t, afterFrench c = '+' :: t) ∨ afterFrench c ∈ fmtErrs := by
  unfold afterFrench
  repeat' split
  all_goals first
    | exact Or.inl ⟨_, rfl⟩
    | exact Or.inr (by decide)
    | exact afterSwiss_shape c

/-- The post-cleaning formatter returns either a `+`-prefixed string or
one of its ten error messages. -/
theorem formatCleaned_shape (c : List Char) :
    (∃ t, formatCleaned c = '+' :: t) ∨ formatCleaned c ∈ fmtErrs := by
  unfold formatCleaned
  repeat' split
  all_goals first
    | exact Or.inl ⟨_, rfl⟩
    | exact Or.inr (by decide)
    | exact afterFrench_shape c

/-- The whole formatter returns either a `+`-prefixed string or one of
its twelve error messages. -/
theorem formatPhoneNumber_shape (s : List Char) :
    (∃ t, formatPhoneNumber s = '+' :: t) ∨
      formatPhoneNumber s ∈ errVide :: errApresNettoyage :: fmtErrs := by
  unfold formatPhoneNumber
  split
  · exact Or.inr (by decide)
  · split
    · exact Or.inr (by decide)
    · rcases formatCleaned_shape (cleanRawInput s) with ⟨t, ht⟩ | hmem
      · exact Or.inl ⟨t, ht⟩
      · exact Or.inr (List.mem_cons_of_mem _ (List.mem_cons_of_mem _ hmem))

/-- C9 (confirmed): `format` fails with kind EmptyInput exactly when the
input is empty or becomes empty after cleaning (in particular on `""`);
every non-empty cleaned string starting with none of the handled country
prefixes (`0`, `33`, `41`, `32`, `39`, `376`, `262`, `49`) fails with kind
UnrecognizedFormat (in particular `format("abc123")`).  In the embedding
the function is total, so every failure is returned as a value, never
thrown. -/
theorem c9_empty_and_unrecognized :
    kindOf (formatPhoneNumber []) = some .emptyInput ∧
    (∀ s : List Char,
      kindOf (formatPhoneNumber s) = some .emptyInput ↔
        (s = [] ∨ cleanRawInput s = [])) ∧
    (∀ c : List Char, c ≠ [] →
        startsWithL c ['0'] = false → startsWithL c ['3', '3'] = false →
        startsWithL c ['4', '1'] = false → startsWithL c ['3', '2'] = false →
        startsWithL c ['3', '9'] = false → startsWithL c ['3', '7', '6'] = false →
        startsWithL c ['2', '6', '2'] = false → startsWithL c ['4', '9'] = false →
        kindOf (formatCleaned c) = some .unrecognizedFormat) ∧
    kindOf (formatPhoneNumber (str "abc123")) = some .unrecognizedFormat := by
  refine ⟨by decide, ?_, ?_, by decide⟩
  case refine_2 =>
    intro c _ h0 h33 h41 h32 h39 h376 h262 h49
    unfold formatCleaned
    rw [if_neg (by simp [h0]), if_neg (by simp [h33])]
    unfold afterFrench
    rw [if_neg (by simp [h41])]
    unfold afterSwiss
    rw [if_neg (by simp [h32]), if_neg (by simp [h39]), if_neg (by simp [h376]),
      if_neg (by simp [h262])]
    unfold afterRun
    rw [if_neg (by simp [h49])]
    decide
  intro s
  constructor
  · intro h
    by_contra hcon
    push_neg at hcon
    obtain ⟨hs, hc⟩ := hcon
    unfold formatPhoneNumber at h
    rw [if_neg hs, if_neg hc] at h
    rcases formatCleaned_shape (cleanRawInput s) with ⟨t, ht⟩ | hmem
    · rw [ht, kindOf_cons_plus] at h
      exact Option.noConfusion h
    · simp only [fmtErrs, List.mem_cons, List.not_mem_nil, or_false] at hmem
      rcases hmem with h' | h' | h' | h' | h' | h' | h' | h' | h' | h' <;>
        · rw [h'] at h
          exact absurd h (by decide)
  · intro h
    rcases h with rfl | hc
    · decide
    · by_cases hs : s = []
      · subst hs
        decide
      · unfold formatPhoneNumber
        rw [if_neg hs, if_pos hc]
        decide

/-- C9 witness: the exactly-when part applied at a concrete input that
becomes empty after cleaning, and the unrecognized-prefix part applied at
a concrete cleaned string outside every country rule. -/
theorem c9_empty_and_unrecognized_witness :
    kindOf (formatPhoneNumber (str "--")) = some ErrKind.emptyInput ∧
    kindOf (formatCleaned (str "555123")) = some ErrKind.unrecognizedFormat :=
  ⟨(c9_empty_and_unrecognized.2.1 (str "--")).mpr (Or.inr (by decide)),
   c9_empty_and_unrecognized.2.2.1 (str "555123") (by decide) (by decide)
     (by decide) (by decide) (by decide) (by decide) (by decide) (by decide)
     (by decide)⟩

/-- C10 (confirmed): for every input, the formatter's return value starts
with `+` (success) or with `Erreur:` (failure), and never both; this
prefix dichotomy is what the request-handling layer tests. -/
theorem c10_prefix_dichotomy (s : List Char) :
    (startsWithL (formatPhoneNumber s) ['+'] = true ∧
      startsWithL (formatPhoneNumber s) ['E', 'r', 'r', 'e', 'u', 'r', ':'] = false) ∨
    (startsWithL (formatPhoneNumber s) ['+'] = false ∧
      startsWithL (formatPhoneNumber s) ['E', 'r', 'r', 'e', 'u', 'r', ':'] = true) := by
  rcases formatPhoneNumber_shape s with ⟨t, ht⟩ | hmem
  · rw [ht]
    exact Or.inl ⟨by simp [startsWithL], by simp [startsWithL]⟩
  · right
    simp only [fmtErrs, List.mem_cons, List.not_mem_nil, or_false] at hmem
    rcases hmem with h' | h' | h' | h' | h' | h' | h' | h' | h' | h' | h' | h' <;>
      · rw [h']
        exact ⟨by decide, by decide⟩

end PhoneUtils
